import Mathlib

/-!
Shallow embedding of `pytomo3d/adjoint/adjsrc.py` (adjoint-source computation
and post-processing) and verification of the specification's claims about it.

Modelling conventions:
* Times and sample values are `Rat` (the Python code uses floats/`UTCDateTime`
  differences; all the scenarios verified here are exact in rationals).
* A raised Python exception is modelled as `Option.none` (or the outer `none`
  of a nested `Option` where the code distinguishes "raised" from
  "returned None").
* External collaborators (the pyadjoint measurement engine, the obspy
  geodesy routine `gps2DistAzimuth`, the obspy `Stream.interpolate` and
  `Stream.rotate` methods) are parameters of the embedded functions.
* In-place mutation of traces (numpy `*=` / `+=` on aliased arrays) is
  modelled by explicit state passing: the mutating function returns the
  final state of the input stream alongside its result.
-/

/-- Python `int()` applied to a rational number: truncation toward zero. -/
def pyInt (q : Rat) : Int := q.num.tdiv (q.den : Int)

/-- Python `s[-1]` on a string, as the one-character string it denotes
(the code always applies it to non-empty channel codes). -/
def lastChar (s : String) : String :=
  match s.data.getLast? with
  | some c => String.mk [c]
  | none => ""

/-- obspy `Trace`: the fields of `tr.stats` and `tr.data` that the module
reads or writes. `npts` is `data.length`. -/
structure MTrace where
  network : String
  station : String
  location : String
  channel : String
  starttime : Rat
  delta : Rat
  data : List Rat
deriving DecidableEq, Repr

/-- obspy trace id `NETWORK.STATION.LOCATION.CHANNEL` (`tr.id`). -/
def traceId (tr : MTrace) : String :=
  tr.network ++ "." ++ tr.station ++ "." ++ tr.location ++ "." ++ tr.channel

/-- obspy `tr.stats.endtime = starttime + (npts - 1) * delta`. -/
def traceEndtime (tr : MTrace) : Rat :=
  tr.starttime + (((tr.data.length : Int) - 1 : Int) : Rat) * tr.delta

/-- pyadjoint `AdjointSource`: the fields the module reads or writes.
Constructor-order fields match `AdjointSource(adj_src_type, misfit, dt,
min_period, max_period, component)`; `adjoint_source`, `station`, `network`
are attributes assigned after construction. -/
structure AdjointSource where
  adj_src_type : String
  misfit : Rat
  dt : Rat
  min_period : Rat
  max_period : Rat
  component : String
  adjoint_source : List Rat
  station : String
  network : String
deriving DecidableEq, Repr

/-- pyflex window: the attributes read by this module. -/
structure MWindow where
  channel_id : String
  relative_starttime : Rat
  relative_endtime : Rat
deriving DecidableEq, Repr

/-- obspy event origin: the attributes read by `postprocess_adjsrc`. -/
structure MOrigin where
  latitude : Rat
  longitude : Rat
  time : Rat
deriving DecidableEq, Repr

/-- obspy `Event`: `preferred_origin()` may be `None`, in which case the
code falls back to `origins[0]`. -/
structure MEvent where
  preferred_origin : Option MOrigin
  origins : List MOrigin
deriving DecidableEq, Repr

/-- obspy `Inventory`: the code only reads `inventory[0][0].latitude` and
`inventory[0][0].longitude` (first station of first network), modelled
flattened. -/
structure MInventory where
  latitude : Rat
  longitude : Rat
deriving DecidableEq, Repr

/-- obspy `stream.select(id=cid)[0]`: first trace with the given full id,
`none` when the selection is empty (Python `IndexError`). -/
def select_id (stream : List MTrace) (cid : String) : Option MTrace :=
  stream.find? (fun tr => traceId tr == cid)

/-- obspy `stream.select(channel="*X")[0]`: first trace whose channel code
ends in the given component letter, `none` when empty. -/
def select_channel_comp (stream : List MTrace) (c : String) : Option MTrace :=
  stream.find? (fun tr => lastChar tr.channel == c)

/-- Python dict assignment `d[k] = v`: replace the value when the key is
present, append otherwise. -/
def dictInsert (d : List (String × AdjointSource)) (k : String)
    (v : AdjointSource) : List (String × AdjointSource) :=
  if d.any (fun p => p.1 == k) then
    d.map (fun p => if p.1 == k then (k, v) else p)
  else
    d ++ [(k, v)]

/-- Membership of a key in a Python-dict association list. -/
def hasKey (d : List (String × AdjointSource)) (k : String) : Bool :=
  d.any (fun p => p.1 == k)

/-- Python dict lookup `d[k]` as an `Option` (`none` models `KeyError`). -/
def dictGetNat (d : List (String × Nat)) (k : String) : Option Nat :=
  (d.find? (fun p => p.1 == k)).map (fun p => p.2)

/-- Embeds `_stats_channel_window`: number of windows on each channel.
`chan_win[0]` raises `IndexError` on an empty channel-window list,
modelled as `none`. -/
def _stats_channel_window : List (List MWindow) → Option (List (String × Nat))
  | [] => some []
  | chan_win :: rest =>
    match chan_win with
    | [] => none
    | w :: _ =>
      match _stats_channel_window rest with
      | none => none
      | some d => some ((w.channel_id, chan_win.length) :: d)

/-- Embeds `_clean_adj_results`: for every key of `chan_adj_dict`, keep its adjoint
result and look up its window count in `chan_nwin_dict`; a missing count
raises `KeyError`, modelled as `none`. -/
def _clean_adj_results (chan_adj_dict : List (String × AdjointSource))
    (chan_nwin_dict : List (String × Nat)) :
    Option (List (String × AdjointSource) × List (String × Nat)) :=
  match chan_adj_dict with
  | [] => some ([], [])
  | (chan_id, chan_adj) :: rest =>
    match dictGetNat chan_nwin_dict chan_id with
    | none => none
    | some n =>
      match _clean_adj_results rest chan_nwin_dict with
      | none => none
      | some (a, b) => some ((chan_id, chan_adj) :: a, (chan_id, n) :: b)

/-- Embeds `calculate_adjsrc_on_trace` (type checks hold by construction in the typed
embedding): the window array must have shape `(*, 2)`, which fails for an
empty window list (outer `none` models that raised `ValueError`); the
pyadjoint call is wrapped in `try/except`, so an engine failure yields the
inner `none` (`adjsrc = None`). The engine is the external parameter. -/
def calculate_adjsrc_on_trace
    (engine : MTrace → MTrace → List (Rat × Rat) → Option AdjointSource)
    (obs syn : MTrace) (windows : List (Rat × Rat)) :
    Option (Option AdjointSource) :=
  if windows.length = 0 then none
  else some (engine obs syn windows)

/-- Loop body of `calculate_adjsrc_on_stream`, with the accumulated
`channel_adj_dict` threaded through; `none` models a raised exception
(missing observed or synthetic trace). -/
def calc_on_stream_go
    (engine : MTrace → MTrace → List (Rat × Rat) → Option AdjointSource)
    (observed synthetic : List MTrace) :
    List (List MWindow) → List (String × AdjointSource) →
    Option (List (String × AdjointSource))
  | [], acc => some acc
  | chan_win :: rest, acc =>
    match chan_win with
    | [] => calc_on_stream_go engine observed synthetic rest acc
    | w :: _ =>
      match select_id observed w.channel_id with
      | none => none
      | some obs =>
        match select_channel_comp synthetic (lastChar obs.channel) with
        | none => none
        | some syn =>
          let wins := chan_win.map
            (fun x => (x.relative_starttime, x.relative_endtime))
          match calculate_adjsrc_on_trace engine obs syn wins with
          | none => none
          | some none => calc_on_stream_go engine observed synthetic rest acc
          | some (some adjsrc) =>
            calc_on_stream_go engine observed synthetic rest
              (dictInsert acc w.channel_id adjsrc)

/-- Embeds `calculate_adjsrc_on_stream`: per-channel adjoint sources keyed by the
observed channel id. -/
def calculate_adjsrc_on_stream
    (engine : MTrace → MTrace → List (Rat × Rat) → Option AdjointSource)
    (observed synthetic : List MTrace) (windows : List (List MWindow)) :
    Option (List (String × AdjointSource)) :=
  calc_on_stream_go engine observed synthetic windows []

/-- Embeds `adjsrc_function` (the observed/synthetic/config type checks hold by
construction): returns `some none` when `windows` is `None` or empty (the
bare Python `return`), otherwise `some (some result)`; the outer `none`
models a raised exception from the stats/aggregation/cleaning stages. -/
def adjsrc_function
    (engine : MTrace → MTrace → List (Rat × Rat) → Option AdjointSource)
    (observed synthetic : List MTrace)
    (windows : Option (List (List MWindow))) :
    Option (Option (List (String × AdjointSource) × List (String × Nat))) :=
  match windows with
  | none => some none
  | some ws =>
    if ws.length = 0 then some none
    else
      match _stats_channel_window ws with
      | none => none
      | some channel_nwins_dict =>
        match calculate_adjsrc_on_stream engine observed synthetic ws with
        | none => none
        | some channel_adj_dict =>
          match _clean_adj_results channel_adj_dict channel_nwins_dict with
          | none => none
          | some r => some (some r)

/-- Embeds `calculate_baz`: `_, baz, _ = gps2DistAzimuth(elat, elon, slat, slon)` —
the SECOND component of the external geodesy routine's result triple is
returned. The geodesy routine is the external parameter `gps`. -/
def calculate_baz (gps : Rat → Rat → Rat → Rat → Rat × Rat × Rat)
    (elat elon slat slon : Rat) : Rat :=
  (gps elat elon slat slon).2.1

/-- Modelled from the spec: the external geodesy routine
`distance_azimuth(lat1, lon1, lat2, lon2) → (distance, forward_azimuth,
back_azimuth)`; this concrete instance returns the documented triple for
event `(0, 0)` and station `(0, 10)` (forward azimuth 90°, back azimuth
270°). -/
def gpsSpecExample : Rat → Rat → Rat → Rat → Rat × Rat × Rat :=
  fun _ _ _ _ => (1113194, 90, 270)

/-- Helper for `splitDot`: split a character list at `'.'` separators,
accumulating the current field in reverse. -/
def splitDotAux : List Char → List Char → List (List Char)
  | [], cur => [cur.reverse]
  | c :: rest, cur =>
    if c = '.' then cur.reverse :: splitDotAux rest []
    else splitDotAux rest (c :: cur)

/-- Python `s.split(".")`. -/
def splitDot (s : String) : List String :=
  (splitDotAux s.data []).map String.mk

/-- An `Option`-valued map over a list, short-circuiting at the first `none`
(the monadic map of the `Option` monad, written structurally). -/
def mapOption (f : α → Option β) : List α → Option (List β)
  | [] => some []
  | a :: l =>
    match f a with
    | none => none
    | some b =>
      match mapOption f l with
      | none => none
      | some bs => some (b :: bs)

/-- Embeds `_convert_adj_to_trace`: `chan_id.split(".")[2]` raises `IndexError`
when the id has fewer than three dot-separated parts, modelled as `none`. -/
def _convert_adj_to_trace (adj : AdjointSource) (starttime : Rat)
    (chan_id : String) : Option MTrace :=
  let parts := splitDot chan_id
  match parts[2]? with
  | none => none
  | some loc =>
    some { network := adj.network
           station := adj.station
           location := loc
           channel := parts.getLastD ""
           starttime := starttime
           delta := adj.dt
           data := adj.adjoint_source }

/-- Embeds `_convert_trace_to_adj`. -/
def _convert_trace_to_adj (tr : MTrace) (adj : AdjointSource) : AdjointSource :=
  { adj with
    dt := tr.delta
    component := lastChar tr.channel
    adjoint_source := tr.data
    station := tr.station
    network := tr.network }

/-- Per-trace body of `zero_padding_stream`: whole-sample pad counts via
Python `int()` (truncation toward zero), clamped to ≥ 0; the data array is
rebuilt with leading/trailing zeros and the start time moved back by
`npts_before * dt`. -/
def zero_padding_trace (starttime endtime : Rat) (tr : MTrace) : MTrace :=
  let dt := tr.delta
  let tr_endtime := traceEndtime tr
  let npts_before := (max (pyInt ((tr.starttime - starttime) / dt) + 1) 0).toNat
  let npts_after := (max (pyInt ((endtime - tr_endtime) / dt) + 1) 0).toNat
  { tr with
    starttime := tr.starttime - (npts_before : Rat) * dt
    data := List.replicate npts_before 0 ++ tr.data ++
            List.replicate npts_after 0 }

/-- Embeds `zero_padding_stream`: raises `ValueError` (modelled `none`) when
`starttime > endtime`, otherwise pads every trace in place. -/
def zero_padding_stream (stream : List MTrace) (starttime endtime : Rat) :
    Option (List MTrace) :=
  if starttime > endtime then none
  else some (stream.map (zero_padding_trace starttime endtime))

/-- numpy `a += b` on equal-length arrays; a shape mismatch raises
(modelled `none`; scalar broadcasting never occurs at this call site). -/
def npAdd (a b : List Rat) : Option (List Rat) :=
  if a.length = b.length then some (List.zipWith (· + ·) a b) else none

/-- Accumulation steps of `sum_adj_on_component` for the non-first channels
of one component: `comp_tr.data += chan_weight * adj_stream.select(...)[0]
.data`. `comp_tr` aliases the trace at index `ct` of the stream, so each
step updates the stream state there. -/
def sum_comp_channels (ct : Nat) :
    List MTrace → List (String × Rat) → Option (List MTrace)
  | stream, [] => some stream
  | stream, (chan_id, chan_weight) :: rest =>
    match select_id stream chan_id with
    | none => none
    | some src =>
      match stream[ct]? with
      | none => none
      | some cur =>
        match npAdd cur.data (src.data.map (fun x => chan_weight * x)) with
        | none => none
        | some d =>
          sum_comp_channels ct (stream.set ct { cur with data := d }) rest

/-- Index of the first trace satisfying a predicate (the position of
`stream.select(...)[0]` inside the stream, used to model aliasing). -/
def findIndex (p : MTrace → Bool) : List MTrace → Option Nat
  | [] => none
  | tr :: rest =>
    if p tr then some 0 else (findIndex p rest).map (fun i => i + 1)

/-- First-channel step plus accumulation for one component of
`sum_adj_on_component`: select the first named channel, scale its data by
its weight and clear its location in place, then accumulate the remaining
channels into it. Returns the updated stream state and the index of the
component trace (the alias target). -/
def sum_one_comp (stream : List MTrace) :
    List (String × Rat) → Option (List MTrace × Nat)
  | [] => none
  | (chan_id, chan_weight) :: rest =>
    match findIndex (fun tr => traceId tr == chan_id) stream with
    | none => none
    | some i =>
      match stream[i]? with
      | none => none
      | some tr =>
        let stream1 := stream.set i
          { tr with data := tr.data.map (fun x => chan_weight * x)
                    location := "" }
        match sum_comp_channels i stream1 rest with
        | none => none
        | some stream2 => some (stream2, i)

/-- Outer loop of `sum_adj_on_component` over the components of the weight
dict. `ct` is the current value of the Python variable `comp_tr` (as an
index into the stream state): a component whose weight sub-dict is empty
appends the stale `comp_tr` (a `NameError`, modelled `none`, when there is
none yet). `acc` collects, in order, the indices appended to `new_stream`. -/
def sum_adj_loop :
    List MTrace → Option Nat → List Nat →
    List (String × List (String × Rat)) → Option (List MTrace × List Nat)
  | stream, _, acc, [] => some (stream, acc.reverse)
  | stream, ct, acc, (_, comp_weights) :: rest =>
    match comp_weights with
    | [] =>
      match ct with
      | none => none
      | some i => sum_adj_loop stream ct (i :: acc) rest
    | _ :: _ =>
      match sum_one_comp stream comp_weights with
      | none => none
      | some (stream2, i) => sum_adj_loop stream2 (some i) (i :: acc) rest

/-- Embeds `sum_adj_on_component`: returns the final state of the (mutated) input
stream together with `new_stream`; each `new_stream` trace aliases a trace
of the input stream, so it is materialised from the final stream state. -/
def sum_adj_on_component (adj_stream : List MTrace)
    (weight_dict : List (String × List (String × Rat))) :
    Option (List MTrace × List MTrace) :=
  match sum_adj_loop adj_stream none [] weight_dict with
  | none => none
  | some (st, idxs) =>
    match mapOption (fun i => st[i]?) idxs with
    | none => none
    | some new_stream => some (st, new_stream)

/-- Python `list.remove(x)`: remove the first occurrence, `ValueError`
(modelled `none`) when absent. -/
def list_remove : List String → String → Option (List String)
  | [], _ => none
  | y :: ys, x =>
    if y = x then some ys
    else (list_remove ys x).map (fun l => y :: l)

/-- The `missinglist.remove(tr.stats.channel[-1])` loop of
`postprocess_adjsrc`. -/
def compute_missing : List String → List MTrace → Option (List String)
  | missing, [] => some missing
  | missing, tr :: rest =>
    match list_remove missing (lastChar tr.channel) with
    | none => none
    | some m => compute_missing m rest

/-- The missing-component synthesis block of `postprocess_adjsrc`:
`tr_template = adj_stream[0]` (IndexError on an empty stream), remove each
present component letter from `["Z", "R", "T"]`, then append, for each
remaining letter, a copy of the template with all-zero samples and channel
`template.channel[0:2] + letter`. -/
def fill_missing_components (stream : List MTrace) : Option (List MTrace) :=
  match stream[0]? with
  | none => none
  | some tr_template =>
    match compute_missing ["Z", "R", "T"] stream with
    | none => none
    | some missinglist =>
      some (stream ++ missinglist.map (fun component =>
        { tr_template with
          channel := tr_template.channel.take 2 ++ component
          data := List.replicate tr_template.data.length 0 }))

/-- Embeds `postprocess_adjsrc`. External collaborators are parameters: `gps` is
`gps2DistAzimuth`; `interpFn delta starttime npts` is
`Stream.interpolate(sampling_rate=1/delta, starttime=starttime, npts=npts)`
applied per trace; `rotFn baz` is `Stream.rotate(method="RT->NE",
back_azimuth=baz)`, whose failure (`rotFn` returning `none`) is caught and
leaves the stream unrotated. `adjsrcs` is the input dict in iteration
order. -/
def postprocess_adjsrc
    (gps : Rat → Rat → Rat → Rat → Rat × Rat × Rat)
    (interpFn : Rat → Rat → Nat → MTrace → MTrace)
    (rotFn : Rat → List MTrace → Option (List MTrace))
    (adjsrcs : List (String × AdjointSource)) (adj_starttime : Rat)
    (raw_synthetic : List MTrace) (inventory : MInventory) (event : MEvent)
    (sum_over_comp_flag : Bool)
    (weight_dict : Option (List (String × List (String × Rat)))) :
    Option (List AdjointSource × Rat) :=
  let originOpt :=
    match event.preferred_origin with
    | some o => some o
    | none => event.origins[0]?
  match originOpt with
  | none => none
  | some origin =>
    let elat := origin.latitude
    let elon := origin.longitude
    let event_time := origin.time
    let slat := inventory.latitude
    let slon := inventory.longitude
    match mapOption
        (fun p => _convert_adj_to_trace p.2 adj_starttime p.1) adjsrcs with
    | none => none
    | some adj_stream0 =>
      match raw_synthetic[0]? with
      | none => none
      | some ref =>
        let interp_starttime := ref.starttime
        let interp_delta := ref.delta
        let interp_npts : Nat := ref.data.length
        let interp_endtime := interp_starttime +
          interp_delta * (interp_npts : Rat)
        let time_offset := interp_starttime - event_time
        match zero_padding_stream adj_stream0 interp_starttime
            interp_endtime with
        | none => none
        | some adj_stream1 =>
          let adj_stream2 := adj_stream1.map
            (interpFn interp_delta interp_starttime interp_npts)
          let summedOpt :=
            if sum_over_comp_flag then
              match weight_dict with
              | none => none
              | some wd =>
                match sum_adj_on_component adj_stream2 wd with
                | none => none
                | some (_, new_stream) => some new_stream
            else some adj_stream2
          match summedOpt with
          | none => none
          | some adj_stream3 =>
            match fill_missing_components adj_stream3 with
            | none => none
            | some adj_stream4 =>
              let baz := calculate_baz gps elat elon slat slon
              let components := adj_stream4.map (fun tr => lastChar tr.channel)
              let adj_stream5 :=
                if "R" ∈ components ∧ "T" ∈ components then
                  match rotFn baz adj_stream4 with
                  | some s => s
                  | none => adj_stream4
                else adj_stream4
              match adjsrcs[0]? with
              | none => none
              | some tmp =>
                let final_adjsrcs := adj_stream5.map (fun tr =>
                  _convert_trace_to_adj tr
                    { adj_src_type := tmp.2.adj_src_type
                      misfit := 0
                      dt := 0
                      min_period := tmp.2.min_period
                      max_period := tmp.2.max_period
                      component := ""
                      adjoint_source := []
                      station := ""
                      network := "" })
                some (final_adjsrcs, time_offset)

/-! ### Statement helpers (predicates mirroring the source's lookups, used in
theorem statements) and concrete fixtures used by witnesses. -/

/-- Channel id of the first window of a channel-window group
(`chan_win[0].channel_id`). -/
def group_head_id : List MWindow → Option String
  | [] => none
  | w :: _ => some w.channel_id

/-- The observed/synthetic trace lookups of `calculate_adjsrc_on_stream`
succeed for this channel-window group (vacuously true for an empty group,
which the loop skips). -/
def lookups_ok (observed synthetic : List MTrace) : List MWindow → Bool
  | [] => true
  | w :: _ =>
    match select_id observed w.channel_id with
    | none => false
    | some obs => (select_channel_comp synthetic (lastChar obs.channel)).isSome

/-- The group is non-empty, its trace lookups succeed, and the measurement
engine call on the located trace pair does not raise. -/
def group_measures
    (engine : MTrace → MTrace → List (Rat × Rat) → Option AdjointSource)
    (observed synthetic : List MTrace) : List MWindow → Bool
  | [] => false
  | w :: rest =>
    match select_id observed w.channel_id with
    | none => false
    | some obs =>
      match select_channel_comp synthetic (lastChar obs.channel) with
      | none => false
      | some syn =>
        (engine obs syn ((w :: rest).map
          (fun x => (x.relative_starttime, x.relative_endtime)))).isSome

/-- Fixture: a concrete adjoint source for channel `II.AAK.00.BHZ`. -/
def exAdjZ : AdjointSource :=
  { adj_src_type := "multitaper_misfit", misfit := 0, dt := 1,
    min_period := 17, max_period := 40, component := "Z",
    adjoint_source := [1, 2, 3], station := "AAK", network := "II" }

/-- Fixture: raw synthetic reference trace (start time 15, `dt` 1, 3
samples), 5 s after the fixture event origin time. -/
def exRefTr : MTrace :=
  { network := "II", station := "AAK", location := "", channel := "MXZ",
    starttime := 15, delta := 1, data := [0, 0, 0] }

/-- Fixture: event with a preferred origin at time 10. -/
def exEv : MEvent :=
  { preferred_origin := some { latitude := 1, longitude := 2, time := 10 },
    origins := [] }

/-- Fixture: station inventory. -/
def exInv : MInventory := { latitude := 3, longitude := 4 }

/-- Fixture: an interpolation collaborator that leaves traces unchanged
(the fixture traces are already on the target time base). -/
def exInterpId : Rat → Rat → Nat → MTrace → MTrace := fun _ _ _ tr => tr

/-- Fixture: geodesy collaborator returning the triple (distance 7,
forward azimuth 30, back azimuth 200). -/
def exGpsA : Rat → Rat → Rat → Rat → Rat × Rat × Rat :=
  fun _ _ _ _ => (7, 30, 200)

/-- Fixture: geodesy collaborator identical to `exGpsA` except for the
forward azimuth (40 instead of 30). -/
def exGpsB : Rat → Rat → Rat → Rat → Rat × Rat × Rat :=
  fun _ _ _ _ => (7, 40, 200)

/-- Fixture: a rotation collaborator that records the back azimuth it was
handed in every trace's data (to observe whether rotation ran and which
azimuth it received). -/
def exRotMark : Rat → List MTrace → Option (List MTrace) :=
  fun baz s => some (s.map (fun tr => { tr with data := [baz] }))

/-- Fixture: a rotation collaborator that leaves the stream unchanged. -/
def exRotId : Rat → List MTrace → Option (List MTrace) := fun _ s => some s

/-- Fixture: a trace exactly covering the interval `[0, 3)` (samples at
times 0, 1, 2 with `dt = 1`). -/
def exCoverTr : MTrace :=
  { network := "II", station := "AAK", location := "00", channel := "BHZ",
    starttime := 0, delta := 1, data := [2, 3, 4] }

/-- Fixture: a Z-component trace on the reference time base. -/
def exZTr : MTrace :=
  { network := "II", station := "AAK", location := "00", channel := "BHZ",
    starttime := 15, delta := 1, data := [1, 2, 3] }

/-- Fixture: an R-component trace on the same time base as `exZTr`. -/
def exRTr : MTrace :=
  { network := "II", station := "AAK", location := "00", channel := "BHR",
    starttime := 15, delta := 1, data := [4, 5, 6] }

/-- Fixture: the result of missing-component synthesis on `[exZTr]`. -/
def exFillRes : List MTrace :=
  [exZTr,
   { exZTr with channel := "BHR", data := [0, 0, 0] },
   { exZTr with channel := "BHT", data := [0, 0, 0] }]

/-- Fixture: the final adjoint sources produced by `postprocess_adjsrc` on
the single-`Z` fixture input (padded `Z` plus synthesised zero `R`/`T`). -/
def exFinalC5 : List AdjointSource :=
  [{ adj_src_type := "multitaper_misfit", misfit := 0, dt := 1,
     min_period := 17, max_period := 40, component := "Z",
     adjoint_source := [0, 1, 2, 3, 0, 0], station := "AAK", network := "II" },
   { adj_src_type := "multitaper_misfit", misfit := 0, dt := 1,
     min_period := 17, max_period := 40, component := "R",
     adjoint_source := [0, 0, 0, 0, 0, 0], station := "AAK", network := "II" },
   { adj_src_type := "multitaper_misfit", misfit := 0, dt := 1,
     min_period := 17, max_period := 40, component := "T",
     adjoint_source := [0, 0, 0, 0, 0, 0], station := "AAK", network := "II" }]

/-- Fixture: first instrument's adjoint trace (`location` `00`),
samples `[2, 2, 2]`. -/
def exSumT1 : MTrace :=
  { network := "II", station := "AAK", location := "00", channel := "BHZ",
    starttime := 0, delta := 1, data := [2, 2, 2] }

/-- Fixture: second instrument's adjoint trace (`location` `10`),
samples `[0, 0, 0]`. -/
def exSumT2 : MTrace :=
  { network := "II", station := "AAK", location := "10", channel := "BHZ",
    starttime := 0, delta := 1, data := [0, 0, 0] }

/-- Fixture: single-sample trace `[1]` for the mutation counterexample. -/
def exMutT1 : MTrace :=
  { network := "N", station := "S", location := "00", channel := "BHZ",
    starttime := 0, delta := 1, data := [1] }

/-- Fixture: second single-sample trace `[1]`. -/
def exMutT2 : MTrace :=
  { network := "N", station := "S", location := "10", channel := "BHZ",
    starttime := 0, delta := 1, data := [1] }

/-- Statement helper: the combined trace `sum_adj_on_component` builds for
a two-channel component — location cleared, data the elementwise
weight-scaled sum of the two channels' sample arrays. -/
def weighted_sum_trace (t1 t2 : MTrace) (w1 w2 : Rat) : MTrace :=
  { t1 with location := "", data := List.zipWith (fun x y => w1 * x + w2 * y) t1.data t2.data }

/-- Fixture: observed stream with Z, R and T channels. -/
def exObsC3 : List MTrace :=
  [{ network := "II", station := "AAK", location := "00", channel := "BHZ",
     starttime := 0, delta := 1, data := [1, 1] },
   { network := "II", station := "AAK", location := "00", channel := "BHR",
     starttime := 0, delta := 1, data := [1, 1] },
   { network := "II", station := "AAK", location := "00", channel := "BHT",
     starttime := 0, delta := 1, data := [1, 1] }]

/-- Fixture: synthetic stream with Z, R and T channels (different channel
prefix and location, as SPECFEM synthetics have). -/
def exSynC3 : List MTrace :=
  [{ network := "II", station := "AAK", location := "S3", channel := "MXZ",
     starttime := 0, delta := 1, data := [2, 2] },
   { network := "II", station := "AAK", location := "S3", channel := "MXR",
     starttime := 0, delta := 1, data := [2, 2] },
   { network := "II", station := "AAK", location := "S3", channel := "MXT",
     starttime := 0, delta := 1, data := [2, 2] }]

/-- Fixture: one window group per channel. -/
def exWinsC3 : List (List MWindow) :=
  [[{ channel_id := "II.AAK.00.BHZ", relative_starttime := 0,
      relative_endtime := 1 }],
   [{ channel_id := "II.AAK.00.BHR", relative_starttime := 0,
      relative_endtime := 1 }],
   [{ channel_id := "II.AAK.00.BHT", relative_starttime := 0,
      relative_endtime := 1 }]]

/-- Fixture: a measurement engine that raises exactly on the `R` channel
and succeeds on the others. -/
def exEngC3 : MTrace → MTrace → List (Rat × Rat) → Option AdjointSource :=
  fun obs _ _ => if lastChar obs.channel == "R" then none else some exAdjZ

/-- Fixture: the aggregator output on the C3 fixtures — exactly the `Z`
and `T` channels. -/
def exMC3 : List (String × AdjointSource) :=
  [("II.AAK.00.BHZ", exAdjZ), ("II.AAK.00.BHT", exAdjZ)]

/-! ### Helper lemmas -/

theorem beq_comm_str (a b : String) : (a == b) = (b == a) := by
  by_cases h : a = b
  · subst h; rfl
  · rw [beq_eq_false_iff_ne.mpr h, beq_eq_false_iff_ne.mpr (Ne.symm h)]

theorem list_any_congr {α : Type} (p q : α → Bool) : ∀ (l : List α),
    (∀ a ∈ l, p a = q a) → l.any p = l.any q := by
  intro l
  induction l with
  | nil => intro _; rfl
  | cons a t ih =>
    intro h
    simp only [List.any_cons, h a (List.mem_cons_self _ _),
      ih (fun b hb => h b (List.mem_cons_of_mem _ hb))]

theorem hasKey_dictInsert (d : List (String × AdjointSource)) (k cid : String)
    (v : AdjointSource) :
    hasKey (dictInsert d k v) cid = (cid == k || hasKey d cid) := by
  unfold hasKey dictInsert
  cases h : d.any (fun p => p.1 == k) with
  | false =>
    simp only [h, Bool.false_eq_true, if_false, List.any_append]
    simp [List.any_cons, List.any_nil, Bool.or_comm, beq_comm_str k cid]
  | true =>
    simp only [h, if_true]
    rw [List.any_map]
    have hf : ∀ p ∈ d, ((fun q => q.1 == cid) ∘
        (fun q => if q.1 == k then (k, v) else q)) p = (p.1 == cid) := by
      intro p _
      by_cases hp : (p.1 == k) = true
      · simp only [Function.comp, hp, if_true]
        rw [eq_of_beq hp]
      · simp only [Function.comp, hp, Bool.false_eq_true, if_false]
    rw [list_any_congr _ _ d hf]
    by_cases hc : cid = k
    · subst hc
      simp [h]
    · have hcb : (cid == k) = false := beq_eq_false_iff_ne.mpr hc
      simp [hcb]

theorem zipWith_add_map_map (w1 w2 : Rat) : ∀ (d1 d2 : List Rat),
    List.zipWith (· + ·) (d1.map (fun x => w1 * x)) (d2.map (fun x => w2 * x)) =
    List.zipWith (fun x y => w1 * x + w2 * y) d1 d2 := by
  intro d1
  induction d1 with
  | nil => intro d2; simp
  | cons a l ih => intro d2; cases d2 <;> simp [ih]

/-- Evaluation of `sum_adj_on_component` on a single component with two
distinct channels both present: the first channel's trace is mutated in
place to the full weighted sum with its location cleared, the second is
untouched, and the returned `new_stream` holds the mutated trace. -/
theorem sum_adj_two_channel_eval (t1 t2 : MTrace) (w1 w2 : Rat)
    (c c' comp : String) (h1 : traceId t1 = c) (h2 : traceId t2 = c')
    (g : traceId { t1 with location := "", data := t1.data.map (fun x => w1 * x) } ≠ c')
    (k : t1.data.length = t2.data.length) :
    sum_adj_on_component [t1, t2] [(comp, [(c, w1), (c', w2)])] =
      some ([weighted_sum_trace t1 t2 w1 w2, t2], [weighted_sum_trace t1 t2 w1 w2]) := by
  have g2 : (traceId { t1 with location := "", data := t1.data.map (fun x => w1 * x) } == c') = false :=
    beq_eq_false_iff_ne.mpr g
  simp [sum_adj_on_component, sum_adj_loop, sum_one_comp, sum_comp_channels,
    findIndex, select_id, npAdd, mapOption, weighted_sum_trace, h1, h2, g2, k,
    zipWith_add_map_map]

theorem lastChar_append_char (s : String) (c : Char) :
    lastChar (s ++ String.mk [c]) = String.mk [c] := by
  unfold lastChar
  have hd : (s ++ String.mk [c]).data = s.data ++ [c] := rfl
  rw [hd, List.getLast?_concat]

theorem list_remove_mem (x a : String) : ∀ (l m : List String),
    list_remove l x = some m → a ∈ l → a ∈ m ∨ a = x := by
  intro l
  induction l with
  | nil => intro m hm; simp [list_remove] at hm
  | cons y ys ih =>
    intro m hm ha
    by_cases hy : y = x
    · subst hy
      simp [list_remove] at hm
      rcases List.mem_cons.mp ha with h | h
      · exact Or.inr h
      · subst hm; exact Or.inl h
    · simp [list_remove, hy] at hm
      obtain ⟨m1, hm1, rfl⟩ := hm
      rcases List.mem_cons.mp ha with rfl | h
      · exact Or.inl (List.mem_cons_self _ _)
      · rcases ih m1 hm1 h with h2 | h2
        · exact Or.inl (List.mem_cons_of_mem _ h2)
        · exact Or.inr h2

theorem compute_missing_mem (a : String) : ∀ (stream : List MTrace)
    (m0 m : List String), compute_missing m0 stream = some m → a ∈ m0 →
    a ∈ m ∨ a ∈ stream.map (fun tr => lastChar tr.channel) := by
  intro stream
  induction stream with
  | nil =>
    intro m0 m hm ha
    simp only [compute_missing, Option.some.injEq] at hm
    subst hm
    exact Or.inl ha
  | cons tr rest ih =>
    intro m0 m hm ha
    unfold compute_missing at hm
    cases hrem : list_remove m0 (lastChar tr.channel) with
    | none => rw [hrem] at hm; exact absurd hm (by simp)
    | some m1 =>
      rw [hrem] at hm
      rcases list_remove_mem _ a m0 m1 hrem ha with h1 | h1
      · rcases ih m1 m hm h1 with h2 | h2
        · exact Or.inl h2
        · exact Or.inr (by simp only [List.map_cons]; exact List.mem_cons_of_mem _ h2)
      · subst h1
        exact Or.inr (by simp)

theorem pyInt_zero : pyInt 0 = 0 := by decide

theorem pyInt_one : pyInt 1 = 1 := by decide

/-! ### Claims -/

/-- C4 (code bug): `calculate_baz` is documented to return the back azimuth,
but `_, baz, _ = gps2DistAzimuth(elat, elon, slat, slon)` takes the SECOND
element of the geodesy routine's `(distance, forward_azimuth, back_azimuth)`
triple — the forward azimuth. At event (0,0) / station (0,10) the routine
returns forward azimuth 90 and back azimuth 270, and `calculate_baz` yields
90, not 270. -/
theorem c4_calculate_baz_returns_forward_azimuth :
    calculate_baz gpsSpecExample 0 0 0 10 = 90 ∧
    (gpsSpecExample 0 0 0 10).2.2 = 270 ∧
    calculate_baz gpsSpecExample 0 0 0 10 ≠ (gpsSpecExample 0 0 0 10).2.2 := by
  refine ⟨rfl, rfl, ?_⟩
  norm_num [calculate_baz, gpsSpecExample]

/-- C9: for Stream-typed observed/synthetic inputs, `adjsrc_function`
returns bare `None` (modelled `some none`) when `windows` is `None` or
empty, performing no measurement (the result does not depend on the
engine, the streams, or anything else). -/
theorem c9_adjsrc_function_returns_none_on_empty_windows
    (engine : MTrace → MTrace → List (Rat × Rat) → Option AdjointSource)
    (observed synthetic : List MTrace)
    (windows : Option (List (List MWindow)))
    (h : windows = none ∨ windows = some []) :
    adjsrc_function engine observed synthetic windows = some none := by
  rcases h with h | h <;> subst h <;> rfl

/-- C9 witness: both trigger cases at concrete inputs. -/
theorem c9_witness :
    adjsrc_function (fun _ _ _ => none) [] [] none = some none ∧
    adjsrc_function (fun _ _ _ => none) [] [] (some []) = some none :=
  ⟨c9_adjsrc_function_returns_none_on_empty_windows _ [] [] none (Or.inl rfl),
   c9_adjsrc_function_returns_none_on_empty_windows _ [] [] (some [])
     (Or.inr rfl)⟩

/-- C8 (counterexample): `_clean_adj_results` is NOT total on every pair of
mappings — an adjoint-dict key with no window-count entry hits
`chan_nwin_dict[chan_id]` and raises `KeyError` (modelled `none`) instead
of being discarded. -/
theorem c8_counterexample :
    _clean_adj_results [("II.AAK.00.BHZ", exAdjZ)] [] = none := rfl

/-- C8 (amended): when every adjoint-dict key has a window count (the only
situation arising in `adjsrc_function`), `_clean_adj_results` keeps every
adjoint entry paired with its count and discards window-count entries with
no accepted measurement; an adjoint key missing from the count mapping
raises `KeyError`. -/
theorem c8_clean_adj_results_restriction
    (adjd : List (String × AdjointSource)) (nwind : List (String × Nat))
    (h : ∀ p ∈ adjd, (dictGetNat nwind p.1).isSome = true) :
    _clean_adj_results adjd nwind =
      some (adjd, adjd.map (fun p => (p.1, (dictGetNat nwind p.1).getD 0))) := by
  induction adjd with
  | nil => rfl
  | cons hd tl ih =>
    obtain ⟨cid, adj⟩ := hd
    obtain ⟨n, hn⟩ := Option.isSome_iff_exists.mp
      (h (cid, adj) (List.mem_cons_self _ _))
    have htl := ih (fun p hp => h p (List.mem_cons_of_mem _ hp))
    simp [_clean_adj_results, hn, htl]

/-- C8 witness: a matched pair of mappings passes through unchanged. -/
theorem c8_witness :
    _clean_adj_results [("II.AAK.00.BHZ", exAdjZ)] [("II.AAK.00.BHZ", 2)] =
      some ([("II.AAK.00.BHZ", exAdjZ)], [("II.AAK.00.BHZ", 2)]) := by
  have h := c8_clean_adj_results_restriction [("II.AAK.00.BHZ", exAdjZ)]
    [("II.AAK.00.BHZ", 2)] (by decide)
  exact h

/-- C2 (counterexample): zero padding is NOT idempotent on a trace that
already exactly covers the requested window. `exCoverTr` has samples at
times 0, 1, 2 (`dt = 1`), exactly covering `[0, 3)`; padding to `[0, 3)`
prepends one zero, appends two zeros, and moves the start time to −1. -/
theorem c2_counterexample :
    (exCoverTr.starttime = 0 ∧ exCoverTr.delta = 1 ∧
      exCoverTr.data.length = 3 ∧ traceEndtime exCoverTr + exCoverTr.delta = 3) ∧
    zero_padding_stream [exCoverTr] 0 3 =
      some [{ exCoverTr with starttime := -1, data := [0, 2, 3, 4, 0, 0] }] ∧
    zero_padding_stream [exCoverTr] 0 3 ≠ some [exCoverTr] := by
  refine ⟨⟨rfl, rfl, rfl, by norm_num [traceEndtime, exCoverTr]⟩, ?_, ?_⟩ <;>
    norm_num [zero_padding_stream, zero_padding_trace, traceEndtime, pyInt_zero,
      pyInt_one, List.replicate, exCoverTr]

/-- C2 (amended): on a trace exactly covering `[s, e)` (that is,
`starttime = s` and `e = s + npts·dt`), `zero_padding_trace` never trims —
the original samples survive contiguously — but it does not leave the
trace unchanged: `int(0/dt)+1 = 1` zero is prepended, `int(dt/dt)+1 = 2`
zeros are appended, and the start time moves back by one `dt`. -/
theorem c2_zero_padding_on_exact_cover (tr : MTrace) (s e : Rat)
    (h : 0 < tr.delta) (g : tr.starttime = s)
    (k : e = s + (tr.data.length : Rat) * tr.delta) :
    zero_padding_trace s e tr =
      { tr with starttime := s - tr.delta,
                data := 0 :: (tr.data ++ [0, 0]) } := by
  have hne : tr.delta ≠ 0 := ne_of_gt h
  have h1 : (tr.starttime - s) / tr.delta = 0 := by rw [g, sub_self, zero_div]
  have h2 : (e - traceEndtime tr) / tr.delta = 1 := by
    rw [k, traceEndtime, g]
    push_cast
    field_simp
    ring
  simp only [zero_padding_trace, h1, h2, pyInt_zero, pyInt_one]
  norm_num [List.replicate, g]

/-- C2 witness: the amended characterisation evaluated on `exCoverTr`. -/
theorem c2_witness :
    zero_padding_trace 0 3 exCoverTr =
      { exCoverTr with starttime := 0 - 1, data := 0 :: ([2, 3, 4] ++ [0, 0]) } := by
  have h := c2_zero_padding_on_exact_cover exCoverTr 0 3
    (by norm_num [exCoverTr]) rfl (by norm_num [exCoverTr])
  exact h

theorem splitDot_exId : splitDot "II.AAK.00.BHZ" = ["II", "AAK", "00", "BHZ"] := rfl

theorem lastChar_BHZ : lastChar "BHZ" = "Z" := rfl

theorem lastChar_BHR : lastChar "BHR" = "R" := rfl

theorem lastChar_BHT : lastChar "BHT" = "T" := rfl

theorem take_BHZ_R : "BHZ".take 2 ++ "R" = "BHR" := rfl

theorem take_BHZ_T : "BHZ".take 2 ++ "T" = "BHT" := rfl

/-- C1 (counterexample): the claim fails: with only `Z` present among the
adjoint sources, `postprocess_adjsrc` still computes the back azimuth
(its output changes when only the geodesy routine's forward-azimuth output
changes) and still rotates (its output changes when only the rotation
collaborator changes) — because `calculate_baz` is called unconditionally
and missing-component synthesis inserts zero `R`/`T` traces before the
rotation condition is tested. -/
theorem c1_counterexample :
    ([("II.AAK.00.BHZ", exAdjZ)].map (fun p => lastChar p.1) = ["Z"]) ∧
    postprocess_adjsrc exGpsA exInterpId exRotMark [("II.AAK.00.BHZ", exAdjZ)]
        15 [exRefTr] exInv exEv false none ≠
      postprocess_adjsrc exGpsB exInterpId exRotMark [("II.AAK.00.BHZ", exAdjZ)]
        15 [exRefTr] exInv exEv false none ∧
    postprocess_adjsrc exGpsA exInterpId exRotMark [("II.AAK.00.BHZ", exAdjZ)]
        15 [exRefTr] exInv exEv false none ≠
      postprocess_adjsrc exGpsA exInterpId exRotId [("II.AAK.00.BHZ", exAdjZ)]
        15 [exRefTr] exInv exEv false none := by
  refine ⟨rfl, ?_, ?_⟩ <;>
    norm_num [postprocess_adjsrc, zero_padding_stream, zero_padding_trace,
      traceEndtime, fill_missing_components, compute_missing, list_remove,
      calculate_baz, _convert_adj_to_trace, _convert_trace_to_adj, mapOption,
      pyInt_zero, pyInt_one, splitDot_exId, lastChar_BHZ, lastChar_BHR,
      lastChar_BHT, take_BHZ_R, take_BHZ_T, List.replicate, exAdjZ, exRefTr,
      exEv, exInv, exInterpId, exGpsA, exGpsB, exRotMark, exRotId]

/-- C1 (amended): back azimuth is computed unconditionally, and whenever
missing-component synthesis succeeds both `R` and `T` are present in the
resulting stream (absent horizontals are synthesised as zero traces), so
the rotation condition `"R" in components and "T" in components` holds and
rotation is attempted even when only `Z` was among the adjoint sources. -/
theorem c1_rotation_condition_after_fill (stream s' : List MTrace)
    (h : fill_missing_components stream = some s') :
    "R" ∈ s'.map (fun tr => lastChar tr.channel) ∧
    "T" ∈ s'.map (fun tr => lastChar tr.channel) := by
  unfold fill_missing_components at h
  cases h0 : stream[0]? with
  | none => rw [h0] at h; exact absurd h (by simp)
  | some tpl =>
    rw [h0] at h
    cases hcm : compute_missing ["Z", "R", "T"] stream with
    | none => rw [hcm] at h; exact absurd h (by simp)
    | some missing =>
      rw [hcm] at h
      simp only [Option.some.injEq] at h
      subst h
      constructor
      · rcases compute_missing_mem "R" stream ["Z", "R", "T"] missing hcm
          (by simp) with h1 | h1
        · simp only [List.map_append, List.map_map]
          apply List.mem_append_right
          exact List.mem_map.mpr ⟨"R", h1, lastChar_append_char _ 'R'⟩
        · simp only [List.map_append]
          exact List.mem_append_left _ h1
      · rcases compute_missing_mem "T" stream ["Z", "R", "T"] missing hcm
          (by simp) with h1 | h1
        · simp only [List.map_append, List.map_map]
          apply List.mem_append_right
          exact List.mem_map.mpr ⟨"T", h1, lastChar_append_char _ 'T'⟩
        · simp only [List.map_append]
          exact List.mem_append_left _ h1

/-- C1 witness: the amended statement evaluated on a stream holding only a
`Z` trace: synthesis yields zero `R` and `T` traces and the rotation
condition holds. -/
theorem c1_witness :
    "R" ∈ exFillRes.map (fun tr => lastChar tr.channel) ∧
    "T" ∈ exFillRes.map (fun tr => lastChar tr.channel) :=
  c1_rotation_condition_after_fill [exZTr] exFillRes rfl


/-- C6: when exactly a `Z` and an `R` trace are present (in either order,
sharing one time base, as interpolation guarantees at this stage),
missing-component synthesis appends exactly one `T` trace, cloned from
`adj_stream[0]`, with all-zero samples and the same start time, sample
interval and sample count as the `Z` component. -/
theorem c6_missing_t_synthesis (a b : MTrace)
    (h : (lastChar a.channel = "Z" ∧ lastChar b.channel = "R") ∨
         (lastChar a.channel = "R" ∧ lastChar b.channel = "Z"))
    (g : b.starttime = a.starttime) (k : b.delta = a.delta)
    (l : b.data.length = a.data.length) :
    fill_missing_components [a, b] =
      some [a, b, { a with channel := a.channel.take 2 ++ "T",
                           data := List.replicate a.data.length 0 }] ∧
    lastChar (a.channel.take 2 ++ "T") = "T" ∧
    List.replicate a.data.length (0 : Rat) = List.replicate b.data.length 0 ∧
    a.starttime = b.starttime ∧ a.delta = b.delta := by
  refine ⟨?_, lastChar_append_char (a.channel.take 2) 'T', by rw [l], g.symm, k.symm⟩
  unfold fill_missing_components
  rcases h with ⟨c, d⟩ | ⟨c, d⟩ <;>
    simp [compute_missing, list_remove, c, d]

/-- C6 witness: `[exZTr, exRTr]` (Z then R, shared time base) gets a zero
`T` trace on the `Z` time base. -/
theorem c6_witness :
    fill_missing_components [exZTr, exRTr] =
      some [exZTr, exRTr,
        { exZTr with channel := "BHZ".take 2 ++ "T",
                     data := List.replicate 3 0 }] ∧
    lastChar ("BHZ".take 2 ++ "T") = "T" := by
  have h := c6_missing_t_synthesis exZTr exRTr (Or.inl ⟨rfl, rfl⟩) rfl rfl rfl
  exact ⟨h.1, h.2.1⟩

/-- C5: whenever `postprocess_adjsrc` returns at all, the returned
`time_offset` equals the raw synthetic's start time minus the event's
preferred-origin time. -/
theorem c5_time_offset
    (gps : Rat → Rat → Rat → Rat → Rat × Rat × Rat)
    (interpFn : Rat → Rat → Nat → MTrace → MTrace)
    (rotFn : Rat → List MTrace → Option (List MTrace))
    (adjsrcs : List (String × AdjointSource)) (adj_starttime : Rat)
    (ref : MTrace) (rest : List MTrace) (inventory : MInventory)
    (event : MEvent) (origin : MOrigin) (flag : Bool)
    (wd : Option (List (String × List (String × Rat))))
    (res : List AdjointSource) (off : Rat)
    (e : event.preferred_origin = some origin)
    (h : postprocess_adjsrc gps interpFn rotFn adjsrcs adj_starttime
      (ref :: rest) inventory event flag wd = some (res, off)) :
    off = ref.starttime - origin.time := by
  unfold postprocess_adjsrc at h
  rw [e] at h
  simp only [List.getElem?_cons_zero] at h
  repeat' split at h
  all_goals simp_all

/-- C5 witness: event origin time 10, raw synthetic start time 15
(= 10 + 5): the returned time offset is exactly 5. -/
theorem c5_witness :
    (postprocess_adjsrc exGpsA exInterpId exRotId [("II.AAK.00.BHZ", exAdjZ)]
        15 [exRefTr] exInv exEv false none).map Prod.snd =
      some (exRefTr.starttime - 10) := by
  have hrun : postprocess_adjsrc exGpsA exInterpId exRotId
      [("II.AAK.00.BHZ", exAdjZ)] 15 [exRefTr] exInv exEv false none =
      some (exFinalC5, 5) := by
    norm_num [postprocess_adjsrc, zero_padding_stream, zero_padding_trace,
      traceEndtime, fill_missing_components, compute_missing, list_remove,
      calculate_baz, _convert_adj_to_trace, _convert_trace_to_adj, mapOption,
      pyInt_zero, pyInt_one, splitDot_exId, lastChar_BHZ, lastChar_BHR,
      lastChar_BHT, take_BHZ_R, take_BHZ_T, List.replicate, exAdjZ, exRefTr,
      exEv, exInv, exInterpId, exGpsA, exRotId, exFinalC5]
  have hoff := c5_time_offset exGpsA exInterpId exRotId
    [("II.AAK.00.BHZ", exAdjZ)] 15 exRefTr [] exInv exEv
    { latitude := 1, longitude := 2, time := 10 } false none exFinalC5 5
    rfl hrun
  rw [hrun]
  exact congrArg some hoff

/-- C7: for a component whose weight sub-mapping names two distinct
channels present in the stream, `sum_adj_on_component` returns one trace
whose samples are the elementwise weight-scaled sum of the two channels'
sample arrays, with its location code cleared. -/
theorem c7_sum_weighted_channels (t1 t2 : MTrace) (w1 w2 : Rat)
    (c c' comp : String) (h1 : traceId t1 = c) (h2 : traceId t2 = c')
    (g : traceId { t1 with location := "", data := t1.data.map (fun x => w1 * x) } ≠ c')
    (k : t1.data.length = t2.data.length) :
    (sum_adj_on_component [t1, t2] [(comp, [(c, w1), (c', w2)])]).map Prod.snd =
      some [weighted_sum_trace t1 t2 w1 w2] := by
  rw [sum_adj_two_channel_eval t1 t2 w1 w2 c c' comp h1 h2 g k]
  rfl

/-- C7 witness: weights 0.5/0.5 on samples `[2,2,2]` and `[0,0,0]` give a
single combined trace `[1,1,1]` with empty location code. -/
theorem c7_witness :
    (sum_adj_on_component [exSumT1, exSumT2]
        [("Z", [("II.AAK.00.BHZ", 1/2), ("II.AAK.10.BHZ", 1/2)])]).map
      Prod.snd =
      some [{ exSumT1 with location := "", data := [1, 1, 1] }] := by
  have h := c7_sum_weighted_channels exSumT1 exSumT2 (1/2) (1/2)
    "II.AAK.00.BHZ" "II.AAK.10.BHZ" "Z" rfl rfl (by decide) rfl
  rw [h]
  norm_num [weighted_sum_trace, exSumT1, exSumT2]

/-- C10 (counterexample): with two channels of one component (weights 1
and 1, samples `[1]` and `[1]`), the first referenced channel's trace in
the mutated input stream ends with samples `[2]` — the full weighted sum,
NOT merely its own samples scaled by its own weight (`1 * [1] = [1]`). -/
theorem c10_counterexample :
    (sum_adj_on_component [exMutT1, exMutT2]
        [("Z", [("N.S.00.BHZ", 1), ("N.S.10.BHZ", 1)])]).map
      (fun r => r.1.map MTrace.data) = some [[2], [1]] ∧
    ¬ ((sum_adj_on_component [exMutT1, exMutT2]
        [("Z", [("N.S.00.BHZ", 1), ("N.S.10.BHZ", 1)])]).map
      (fun r => r.1.map MTrace.data) =
        some [exMutT1.data.map (fun x => 1 * x), exMutT2.data]) := by
  have h := sum_adj_two_channel_eval exMutT1 exMutT2 1 1
    "N.S.00.BHZ" "N.S.10.BHZ" "Z" rfl rfl (by decide) rfl
  constructor <;> rw [h] <;> norm_num [weighted_sum_trace, exMutT1, exMutT2]

/-- C10 (amended): `sum_adj_on_component` mutates its input stream: for a
two-channel component the first referenced channel's trace is updated in
place — location code cleared and samples replaced by the FULL weighted
sum of the component's channels (which equals scaling by its own weight
only when it is the component's sole channel) — the returned stream's
trace is that same mutated trace (aliasing), and with a non-empty original
location code the input stream is provably not left unchanged. -/
theorem c10_sum_mutates_input (t1 t2 : MTrace) (w1 w2 : Rat)
    (c c' comp : String) (h1 : traceId t1 = c) (h2 : traceId t2 = c')
    (g : traceId { t1 with location := "", data := t1.data.map (fun x => w1 * x) } ≠ c')
    (k : t1.data.length = t2.data.length) (m : t1.location ≠ "") :
    sum_adj_on_component [t1, t2] [(comp, [(c, w1), (c', w2)])] =
      some ([weighted_sum_trace t1 t2 w1 w2, t2],
            [weighted_sum_trace t1 t2 w1 w2]) ∧
    [weighted_sum_trace t1 t2 w1 w2, t2] ≠ [t1, t2] := by
  refine ⟨sum_adj_two_channel_eval t1 t2 w1 w2 c c' comp h1 h2 g k, ?_⟩
  intro hc
  apply m
  injection hc with h3 h4
  exact (congrArg MTrace.location h3).symm

/-- C10 witness: the amended statement at weights 0.5/0.5 on the
two-instrument fixture (original location `00` is cleared in place). -/
theorem c10_witness :
    sum_adj_on_component [exSumT1, exSumT2]
        [("Z", [("II.AAK.00.BHZ", 1/2), ("II.AAK.10.BHZ", 1/2)])] =
      some ([weighted_sum_trace exSumT1 exSumT2 (1/2) (1/2), exSumT2],
            [weighted_sum_trace exSumT1 exSumT2 (1/2) (1/2)]) ∧
    [weighted_sum_trace exSumT1 exSumT2 (1/2) (1/2), exSumT2] ≠
      [exSumT1, exSumT2] :=
  c10_sum_mutates_input exSumT1 exSumT2 (1/2) (1/2) "II.AAK.00.BHZ"
    "II.AAK.10.BHZ" "Z" rfl rfl (by decide) rfl (by decide)

theorem calc_go_keys
    (engine : MTrace → MTrace → List (Rat × Rat) → Option AdjointSource)
    (observed synthetic : List MTrace) :
    ∀ (windows : List (List MWindow)) (acc : List (String × AdjointSource)),
    (∀ g ∈ windows, lookups_ok observed synthetic g = true) →
    ∃ m, calc_on_stream_go engine observed synthetic windows acc = some m ∧
      ∀ cid, hasKey m cid = true ↔
        (hasKey acc cid = true ∨ ∃ g ∈ windows, group_head_id g = some cid ∧
          group_measures engine observed synthetic g = true) := by
  intro windows
  induction windows with
  | nil =>
    intro acc _
    refine ⟨acc, rfl, fun cid => ?_⟩
    simp
  | cons gw rest ih =>
    intro acc h
    have hgw := h gw (List.mem_cons_self _ _)
    have hrest : ∀ g ∈ rest, lookups_ok observed synthetic g = true :=
      fun g hg => h g (List.mem_cons_of_mem _ hg)
    cases gw with
    | nil =>
      obtain ⟨m, hm, hiff⟩ := ih acc hrest
      refine ⟨m, by simpa [calc_on_stream_go] using hm, fun cid => ?_⟩
      rw [hiff cid]
      constructor
      · rintro (h1 | ⟨g, hg, hh, hm2⟩)
        · exact Or.inl h1
        · exact Or.inr ⟨g, List.mem_cons_of_mem _ hg, hh, hm2⟩
      · rintro (h1 | ⟨g, hg, hh, hm2⟩)
        · exact Or.inl h1
        · rcases List.mem_cons.mp hg with rfl | hg2
          · exact absurd hh (by simp [group_head_id])
          · exact Or.inr ⟨g, hg2, hh, hm2⟩
    | cons w ws =>
      simp only [lookups_ok] at hgw
      cases hobs : select_id observed w.channel_id with
      | none => simp [hobs] at hgw
      | some obs =>
        simp only [hobs] at hgw
        cases hsyn : select_channel_comp synthetic (lastChar obs.channel) with
        | none => simp [hsyn] at hgw
        | some syn =>
          cases heng : engine obs syn
              ((w.relative_starttime, w.relative_endtime) ::
                List.map (fun x => (x.relative_starttime, x.relative_endtime))
                  ws) with
          | none =>
            obtain ⟨m, hm, hiff⟩ := ih acc hrest
            refine ⟨m, ?_, fun cid => ?_⟩
            · simpa [calc_on_stream_go, hobs, hsyn,
                calculate_adjsrc_on_trace, heng] using hm
            · rw [hiff cid]
              constructor
              · rintro (h1 | ⟨g, hg, hh, hm2⟩)
                · exact Or.inl h1
                · exact Or.inr ⟨g, List.mem_cons_of_mem _ hg, hh, hm2⟩
              · rintro (h1 | ⟨g, hg, hh, hm2⟩)
                · exact Or.inl h1
                · rcases List.mem_cons.mp hg with rfl | hg2
                  · exact absurd hm2 (by
                      simp [group_measures, hobs, hsyn, heng])
                  · exact Or.inr ⟨g, hg2, hh, hm2⟩
          | some adjsrc =>
            obtain ⟨m, hm, hiff⟩ := ih (dictInsert acc w.channel_id adjsrc)
              hrest
            refine ⟨m, ?_, fun cid => ?_⟩
            · simpa [calc_on_stream_go, hobs, hsyn,
                calculate_adjsrc_on_trace, heng] using hm
            · rw [hiff cid, hasKey_dictInsert]
              constructor
              · rintro (h1 | ⟨g, hg, hh, hm2⟩)
                · rcases Bool.or_eq_true_iff.mp h1 with h2 | h2
                  · refine Or.inr ⟨w :: ws, List.mem_cons_self _ _, ?_, ?_⟩
                    · simp [group_head_id, eq_of_beq h2]
                    · simp [group_measures, hobs, hsyn, heng]
                  · exact Or.inl h2
                · exact Or.inr ⟨g, List.mem_cons_of_mem _ hg, hh, hm2⟩
              · rintro (h1 | ⟨g, hg, hh, hm2⟩)
                · exact Or.inl (by simp [h1])
                · rcases List.mem_cons.mp hg with rfl | hg2
                  · refine Or.inl ?_
                    simp only [group_head_id, Option.some.injEq] at hh
                    simp [hh]
                  · exact Or.inr ⟨g, hg2, hh, hm2⟩

/-- C3: under well-formed inputs (every non-empty window group's observed
and synthetic trace lookups succeed), the Window Aggregator returns a
mapping whose keys are EXACTLY the channels that head a non-empty window
group and whose Measurement Engine call did not raise; a channel whose
measurement raises is silently omitted and the error is not propagated, so
one failing channel never aborts the other channels. -/
theorem c3_aggregator_exact_channels
    (engine : MTrace → MTrace → List (Rat × Rat) → Option AdjointSource)
    (observed synthetic : List MTrace) (windows : List (List MWindow))
    (h : ∀ g ∈ windows, lookups_ok observed synthetic g = true) :
    ∃ m, calculate_adjsrc_on_stream engine observed synthetic windows =
        some m ∧
      ∀ cid, hasKey m cid = true ↔
        ∃ g ∈ windows, group_head_id g = some cid ∧
          group_measures engine observed synthetic g = true := by
  obtain ⟨m, hm, hiff⟩ := calc_go_keys engine observed synthetic windows [] h
  refine ⟨m, hm, fun cid => ?_⟩
  rw [hiff cid]
  simp [hasKey]

/-- C3 witness: engine raising exactly on `II.AAK.00.BHR` — the output
contains exactly `II.AAK.00.BHZ` and `II.AAK.00.BHT`. -/
theorem c3_witness :
    calculate_adjsrc_on_stream exEngC3 exObsC3 exSynC3 exWinsC3 =
      some exMC3 ∧
    hasKey exMC3 "II.AAK.00.BHZ" = true ∧
    hasKey exMC3 "II.AAK.00.BHT" = true ∧
    hasKey exMC3 "II.AAK.00.BHR" = false := by
  obtain ⟨m, hm, hiff⟩ := c3_aggregator_exact_channels exEngC3 exObsC3
    exSynC3 exWinsC3 (by decide)
  have hm2 : m = exMC3 := by
    have h0 : calculate_adjsrc_on_stream exEngC3 exObsC3 exSynC3 exWinsC3 =
        some exMC3 := rfl
    exact Option.some.inj (hm.symm.trans h0)
  subst hm2
  exact ⟨hm, rfl, rfl, rfl⟩
